import Mathlib

/-!
Shallow embedding of the project resource controller of tower-cli (the
file tower_cli/resources/project.py, class Resource) together with the
external collaborators its behaviour depends on.  Pure pieces of the
Python code become Lean functions; every HTTP interaction is made explicit
by threading a `Client` (the decoded JSON bodies the server would return)
and by returning the list of requests the operation issued, so that claims
about how many POSTs happened are statable.  JSON values are modelled by
the inductive `JVal`; Python dicts by association lists (`JObj`), with
first-key-wins lookup.  Collaborators that live outside the file under
study (the generic resource accessor, the generic write, the monitor
loop, the CLI command layer) are modelled from the specification and say
so in their doc comments.
-/

namespace TowerCli

/-- A decoded JSON value, as the Python code sees it after a .json() call. -/
inductive JVal where
  | str (s : String)
  | num (n : Int)
  | bool (b : Bool)
  | null
  | obj (fields : List (String × JVal))
deriving Repr

/-- A JSON object / Python dict, as an association list (first key wins). -/
abbrev JObj := List (String × JVal)

/-- Python dict indexing and .get: first binding of the key, if any. -/
def JObj.find : JObj → String → Option JVal
  | [], _ => none
  | (k, v) :: rest, key => if k = key then some v else JObj.find rest key

/-- Python membership test of a key in a dict. -/
def JObj.hasKey (o : JObj) (key : String) : Bool :=
  (JObj.find o key).isSome

/-- The keys of an object, in order. -/
def JObj.keys (o : JObj) : List String := o.map (fun p => p.1)

/-- Python truthiness of a JSON value, as used by the tests
`if not result.json()[...]` and `project[...].get(..., None)`. -/
def JVal.truthy : JVal → Bool
  | .str s => !s.isEmpty
  | .num n => n != 0
  | .bool b => b
  | .null => false
  | .obj fs => !fs.isEmpty

/-- The typed errors raised by the module (tower_cli.utils.exceptions),
plus the dynamic errors Python itself would raise on malformed data. -/
inductive Err where
  | notFound (msg : String)
  | cannotStartJob (msg : String)
  | keyError (key : String)
  | typeError
deriving Repr, DecidableEq

/-- One HTTP request issued through the API client. -/
inductive Req where
  | get (path : String)
  | post (path : String)
deriving Repr, DecidableEq

/-- Whether a request is a (read-only) GET. -/
def Req.isGet : Req → Bool
  | .get _ => true
  | .post _ => false

/-- The API client, abstracted as the JSON body each GET path decodes to.
POST responses are never inspected by the code under study, so only the
GET bodies are needed. -/
structure Client where
  getJson : String → JObj

/-- The project detail path, built as in the source by formatting the
primary key into /projects/%d/. -/
def projectPath (pk : Int) : String := "/projects/" ++ toString pk ++ "/"

/-- The update side-channel path, /projects/%d/update/. -/
def projectUpdatePath (pk : Int) : String :=
  "/projects/" ++ toString pk ++ "/update/"

/-- The Python slice url[7:] applied to related links: drop the first
seven characters to obtain the relative job path. -/
def relJobPath (url : String) : String := url.drop 7

/-- The fallback chain of Resource.status (project.py lines 168-180):
GET the project record, then fetch the job behind the current_update
related link if that key is present, else behind a truthy last_update
related link, else raise NotFound.  A non-string link value would make
the Python slice fail with a TypeError.  Returns the resolved job body
together with the GET requests issued. -/
def resolveUpdateJob (c : Client) (pk : Int) : Except Err JObj × List Req :=
  let pPath := projectPath pk
  let project := c.getJson pPath
  let reqs := [Req.get pPath]
  match JObj.find project "related" with
  | none => (.error (.keyError "related"), reqs)
  | some relv =>
    match relv with
    | .obj related =>
      match JObj.find related "current_update" with
      | some link =>
        match link with
        | .str url =>
          let jPath := relJobPath url
          (.ok (c.getJson jPath), reqs ++ [Req.get jPath])
        | _ => (.error .typeError, reqs)
      | none =>
        match JObj.find related "last_update" with
        | some link =>
          if JVal.truthy link then
            match link with
            | .str url =>
              let jPath := relJobPath url
              (.ok (c.getJson jPath), reqs ++ [Req.get jPath])
            | _ => (.error .typeError, reqs)
          else (.error (.notFound "No project updates exist."), reqs)
        | none => (.error (.notFound "No project updates exist."), reqs)
    | _ => (.error .typeError, reqs)

/-- The tail of Resource.status (project.py lines 185-193): return the
full job when detail is set, otherwise the three-key summary built from
the elapsed, failed and status fields of the job, evaluated in that
order, so the first missing key raises a KeyError. -/
def statusResult (job : JObj) (detail : Bool) : Except Err JObj :=
  if detail then .ok job
  else
    match JObj.find job "elapsed" with
    | none => .error (.keyError "elapsed")
    | some e =>
      match JObj.find job "failed" with
      | none => .error (.keyError "failed")
      | some f =>
        match JObj.find job "status" with
        | none => .error (.keyError "status")
        | some s => .ok [("elapsed", e), ("failed", f), ("status", s)]

/-- Resource.status (project.py lines 161-193): resolve the appropriate
project update via the fallback chain (errors propagate), then project it
down to the summary unless detail was requested. -/
def Resource.status (c : Client) (pk : Int) (detail : Bool) :
    Except Err JObj × List Req :=
  ((resolveUpdateJob c pk).1.bind (fun job => statusResult job detail),
   (resolveUpdateJob c pk).2)

/-- The result of a monitor loop: either the terminal job record that was
observed, or a timeout indication. -/
inductive MonRes where
  | finished (job : JObj)
  | timedOut
deriving Repr

/-- Modelled from the spec: the generic Resource Accessor
(models.Resource.get, not under src/), which resolves a primary key or an
identity tuple (name, organization) to exactly one project record and
fails with NotFound on zero or multiple matches.  It is read-only. -/
structure Accessor where
  get : Option Int → Option String → Option String → Except Err JObj

/-- The result of Resource.update: the literal record with the single key
changed set to true when no monitoring was requested, or the result of
the monitor loop. -/
inductive UpdateRes where
  | changed (r : JObj)
  | monitored (m : MonRes)
deriving Repr

/-- Resource.update (project.py lines 129-159): resolve the project via
the accessor, take its id as the primary key, GET the eligibility
side-channel /projects/pk/update/; if the can_update field of the body is
falsy raise CannotStartJob without any POST; otherwise POST to the same
path, then either delegate to the monitor loop `mon` or return the
changed-true record.  The monitor collaborator also reports the requests
it issued, which are appended to the trace. -/
def Resource.update (c : Client) (acc : Accessor)
    (mon : Int → Option Nat → MonRes × List Req)
    (pk : Option Int) (monitor : Bool) (timeout : Option Nat)
    (name : Option String) (organization : Option String) :
    Except Err UpdateRes × List Req :=
  match acc.get pk name organization with
  | .error e => (.error e, [])
  | .ok project =>
    match JObj.find project "id" with
    | none => (.error (.keyError "id"), [])
    | some idv =>
      match idv with
      | .num pk1 =>
        let eligPath := projectUpdatePath pk1
        let elig := c.getJson eligPath
        match JObj.find elig "can_update" with
        | none => (.error (.keyError "can_update"), [Req.get eligPath])
        | some cu =>
          if !(JVal.truthy cu) then
            (.error (.cannotStartJob "Cannot update project."),
             [Req.get eligPath])
          else
            if monitor then
              let mres := mon pk1 timeout
              (.ok (.monitored mres.1),
               [Req.get eligPath, Req.post eligPath] ++ mres.2)
            else
              (.ok (.changed [("changed", JVal.bool true)]),
               [Req.get eligPath, Req.post eligPath])
      | _ => (.error .typeError, [])

/-- One observable action of Resource.create: its delegated write, its
association call, its handoff to the monitor loop, or a direct HTTP
request through the API client (of which create itself issues none). -/
inductive Event where
  | write (kwargs : JObj)
  | assoc (relation : String) (orgPk : Int) (projectId : Int)
  | monitorStart (projectId : Int)
  | get (path : String)
  | post (path : String)
deriving Repr

/-- The collaborators of Resource.create.  `write` and `orgGet` are
modelled from the spec: the generic write operation and the get of the
organization resource (both in models, not under src/) — `write` returns
the created or found record, which carries an id, and `orgGet` resolves
an organization identity to its record or fails with NotFound.  `mon` is
the monitor loop collaborator. -/
structure CreateEnv where
  write : JObj → JObj
  orgGet : String → Except Err JObj
  mon : Int → Option Nat → MonRes

/-- The result of Resource.create: the created record, or the result of
the monitor loop when monitoring was requested. -/
inductive CreateRes where
  | created (answer : JObj)
  | monitored (m : MonRes)
deriving Repr

/-- Python truthiness of an optional string: None and the empty string
are falsy. -/
def optStrTruthy : Option String → Bool
  | none => false
  | some s => !s.isEmpty

/-- Resource.create (project.py lines 64-95): run the generic write
(ignoring the organization), read the id of the new record, associate the
organization through the association call of the organization resource
when one was given, and finally either delegate to the monitor loop or
return the written record. -/
def Resource.create (env : CreateEnv) (organization : Option String)
    (monitor : Bool) (timeout : Option Nat) (kwargs : JObj) :
    Except Err CreateRes × List Event :=
  let answer := env.write kwargs
  let evs := [Event.write kwargs]
  match JObj.find answer "id" with
  | none => (.error (.keyError "id"), evs)
  | some idv =>
    match idv with
    | .num projectId =>
      let afterOrg : Except Err (List Event) :=
        if optStrTruthy organization then
          match env.orgGet (organization.getD "") with
          | .error e => .error e
          | .ok orgData =>
            match JObj.find orgData "id" with
            | none => .error (.keyError "id")
            | some (.num orgPk) =>
              .ok (evs ++ [Event.assoc "projects" orgPk projectId])
            | some _ => .error .typeError
        else .ok evs
      match afterOrg with
      | .error e => (.error e, evs)
      | .ok evs1 =>
        if monitor then
          (.ok (.monitored (env.mon projectId timeout)),
           evs1 ++ [Event.monitorStart projectId])
        else
          (.ok (.created answer), evs1)
    | _ => (.error .typeError, evs)

/-- The fields offered as options by the decorator of the modify command
(project.py lines 97-101); organization is deliberately absent. -/
def modifyOptionFields : List String :=
  ["name", "description", "scm_type", "scm_url", "local_path",
   "scm_branch", "scm_credential", "scm_clean", "scm_delete_on_update",
   "scm_update_on_launch"]

/-- Modelled from the spec: the generic write operation applied to an
existing record (models.Resource.write, not under src/) — it overwrites
exactly the supplied fields and leaves every other field of the record
unchanged.  With an association list, prepending the supplied fields
gives them precedence on lookup. -/
def writeFields (record : JObj) (kwargs : JObj) : JObj :=
  kwargs ++ record

/-- Resource.modify (project.py lines 102-119): forward the supplied
fields straight to the generic write; the decorator restricts which
fields the CLI can supply (`modifyOptionFields`). -/
def Resource.modify (record : JObj) (kwargs : JObj) : JObj :=
  writeFields record kwargs

/-- Modelled from the spec: the non-terminal job statuses — §4.4 stops
the monitor as soon as the polled status leaves the running/pending
set. -/
def runningStatuses : List String := ["pending", "running"]

/-- A status outside the running/pending set is terminal. -/
def isTerminalStatus (s : String) : Bool := !(runningStatuses.contains s)

/-- The status field of a job record, defaulting to the empty string. -/
def jobStatus (job : JObj) : String :=
  match JObj.find job "status" with
  | some (.str s) => s
  | _ => ""

/-- Modelled from the spec: the Monitor Loop
(models.MonitorableResource.monitor, not under src/), §4.4.  `poll n` is
the job record the status resolver returns on the n-th tick and `clock n`
the wall-clock time at that tick, with `clock 0` the time the loop began.
Each tick polls once; a terminal status stops the loop and returns that
job; otherwise, when a timeout is set and the elapsed wall-clock time
exceeds it, the loop returns the timeout indication; otherwise it sleeps
and polls again.  The loop is unbounded, so it is indexed by fuel: `none`
means the loop is still polling after the given number of ticks.  On
success the tick of the decisive poll is returned alongside the
result. -/
def monitorRun (poll : Nat → JObj) (clock : Nat → Nat)
    (timeout : Option Nat) : Nat → Nat → Option (MonRes × Nat)
  | 0, _ => none
  | fuel + 1, tick =>
    let job := poll tick
    if isTerminalStatus (jobStatus job) then
      some (.finished job, tick)
    else
      match timeout with
      | some t =>
        if t < clock tick - clock 0 then
          some (.timedOut, tick)
        else
          monitorRun poll clock timeout fuel (tick + 1)
      | none => monitorRun poll clock timeout fuel (tick + 1)

/-- Modelled from the spec: the CLI command layer (resources.command, not
under src/) for the status command — it resolves the identity (primary
key, or name plus organization tuple) through the Resource Accessor and
invokes the in-source Resource.status with the resolved primary key. -/
def statusCommand (c : Client) (acc : Accessor) (pk : Option Int)
    (name : Option String) (organization : Option String) (detail : Bool) :
    Except Err JObj × List Req :=
  match acc.get pk name organization with
  | .error e => (.error e, [])
  | .ok project =>
    match JObj.find project "id" with
    | none => (.error (.keyError "id"), [])
    | some (.num rpk) => Resource.status c rpk detail
    | some _ => (.error .typeError, [])

/-- A sample related block with both update links. -/
def sampleRelated : JObj :=
  [("current_update", JVal.str "/api/v1/project_updates/7/"),
   ("last_update", JVal.str "/api/v1/project_updates/5/")]

/-- A sample terminal job record. -/
def sampleJob : JObj :=
  [("id", JVal.num 7), ("elapsed", JVal.num 45),
   ("failed", JVal.bool false), ("status", JVal.str "successful")]

/-- A sample server: project 3 carries both related links; every other
path decodes to the sample job record. -/
def sampleClient : Client :=
  ⟨fun p => if p = projectPath 3 then
      [("id", JVal.num 3), ("related", JVal.obj sampleRelated)]
    else sampleJob⟩

/-- Sample collaborators for Resource.create: the write yields a record
with id 3, the organization accessor resolves to id 5. -/
def sampleCreateEnv : CreateEnv :=
  ⟨fun _ => [("id", JVal.num 3)],
   fun _ => .ok [("id", JVal.num 5)],
   fun _ _ => .timedOut⟩

theorem resolveUpdateJob_all_get (c : Client) (pk : Int) :
    ∀ q ∈ (resolveUpdateJob c pk).2, Req.isGet q = true := by
  unfold resolveUpdateJob
  dsimp only
  repeat' split
  all_goals simp [Req.isGet]

theorem resolveUpdateJob_fetches_project (c : Client) (pk : Int) :
    Req.get (projectPath pk) ∈ (resolveUpdateJob c pk).2 := by
  unfold resolveUpdateJob
  dsimp only
  repeat' split
  all_goals simp

theorem status_reqs_eq (c : Client) (pk : Int) (detail : Bool) :
    (Resource.status c pk detail).2 = (resolveUpdateJob c pk).2 := rfl

theorem status_fst (c : Client) (pk : Int) (detail : Bool) :
    (Resource.status c pk detail).1 =
      (resolveUpdateJob c pk).1.bind (fun job => statusResult job detail) :=
  rfl

theorem JObj.find_append_of_not_key (kwargs record : JObj) (key : String)
    (h : key ∉ JObj.keys kwargs) :
    JObj.find (kwargs ++ record) key = JObj.find record key := by
  induction kwargs with
  | nil => rfl
  | cons p rest ih =>
    rcases p with ⟨k, v⟩
    simp only [JObj.keys, List.map_cons, List.mem_cons, not_or] at h
    rw [List.cons_append]
    rw [JObj.find]
    rw [if_neg (fun hk => h.1 hk.symm)]
    exact ih (by simpa [JObj.keys] using h.2)

theorem monitorRun_step (poll : Nat → JObj) (clock : Nat → Nat)
    (timeout : Option Nat) (fuel tick : Nat)
    (hterm : isTerminalStatus (jobStatus (poll tick)) = false)
    (htime : ∀ t, timeout = some t → clock tick - clock 0 ≤ t) :
    monitorRun poll clock timeout (fuel + 1) tick =
      monitorRun poll clock timeout fuel (tick + 1) := by
  conv_lhs => unfold monitorRun
  dsimp only
  rw [hterm]
  simp only [Bool.false_eq_true, if_false]
  cases timeout with
  | none => rfl
  | some t =>
    have h := htime t rfl
    dsimp only
    rw [if_neg (by omega)]

theorem monitorRun_shift (poll : Nat → JObj) (clock : Nat → Nat)
    (timeout : Option Nat) (k : Nat) :
    ∀ tick fuel,
    (∀ j, j < k → isTerminalStatus (jobStatus (poll (tick + j))) = false ∧
        ∀ t, timeout = some t → clock (tick + j) - clock 0 ≤ t) →
    monitorRun poll clock timeout (k + fuel) tick =
      monitorRun poll clock timeout fuel (tick + k) := by
  induction k with
  | zero => intro tick fuel _; simp
  | succ k ih =>
    intro tick fuel h
    have h0 := h 0 (by omega)
    rw [Nat.succ_add]
    rw [monitorRun_step poll clock timeout (k + fuel) tick
      (by simpa using h0.1) (by simpa using h0.2)]
    rw [ih (tick + 1) fuel ?_]
    · have e : tick + 1 + k = tick + (k + 1) := by omega
      rw [e]
    · intro j hj
      have hj1 := h (j + 1) (by omega)
      have e : tick + 1 + j = tick + (j + 1) := by omega
      rw [e]
      exact hj1

/-- C1: for every project for which the eligibility GET returns a false
can_update, Resource.update fails with CannotStartJob and its request
trace contains no POST at all — the only request issued is the
eligibility GET itself. -/
theorem update_ineligible_no_post
    (c : Client) (acc : Accessor) (mon : Int → Option Nat → MonRes × List Req)
    (pk : Option Int) (monitor : Bool) (timeout : Option Nat)
    (name organization : Option String) (project : JObj) (pk1 : Int)
    (hget : acc.get pk name organization = .ok project)
    (hid : JObj.find project "id" = some (JVal.num pk1))
    (hcu : JObj.find (c.getJson (projectUpdatePath pk1)) "can_update" =
      some (JVal.bool false)) :
    Resource.update c acc mon pk monitor timeout name organization =
      (.error (.cannotStartJob "Cannot update project."),
       [Req.get (projectUpdatePath pk1)]) ∧
    ∀ p, Req.post p ∉
      (Resource.update c acc mon pk monitor timeout name organization).2 := by
  have h1 : Resource.update c acc mon pk monitor timeout name organization =
      (.error (.cannotStartJob "Cannot update project."),
       [Req.get (projectUpdatePath pk1)]) := by
    unfold Resource.update
    rw [hget]
    dsimp only
    rw [hid]
    dsimp only
    rw [hcu]
    rfl
  refine ⟨h1, ?_⟩
  intro p
  rw [h1]
  simp

/-- Witness for C1: an ineligible concrete project. -/
theorem update_ineligible_no_post_witness :
    Resource.update ⟨fun _ => [("can_update", JVal.bool false)]⟩
      ⟨fun _ _ _ => .ok [("id", JVal.num 3)]⟩ (fun _ _ => (.timedOut, []))
      (some 3) false none none none =
      (.error (.cannotStartJob "Cannot update project."),
       [Req.get (projectUpdatePath 3)]) ∧
    ∀ p, Req.post p ∉
      (Resource.update ⟨fun _ => [("can_update", JVal.bool false)]⟩
        ⟨fun _ _ _ => .ok [("id", JVal.num 3)]⟩ (fun _ _ => (.timedOut, []))
        (some 3) false none none none).2 :=
  update_ineligible_no_post _ _ _ _ _ _ _ _ _ 3 rfl rfl rfl

/-- C2: when the related links of a project contain both a current_update
and a last_update reference, the resolved job — also the one reported by
status with detail — is the one fetched from the current_update link, and
the job fetch of the trace never targets the last_update link. -/
theorem status_current_update_precedence
    (c : Client) (pk : Int) (related : JObj) (cu lu : String)
    (hrel : JObj.find (c.getJson (projectPath pk)) "related" =
      some (JVal.obj related))
    (hcu : JObj.find related "current_update" = some (JVal.str cu))
    (hlu : JObj.find related "last_update" = some (JVal.str lu)) :
    resolveUpdateJob c pk =
      (.ok (c.getJson (relJobPath cu)),
       [Req.get (projectPath pk), Req.get (relJobPath cu)]) ∧
    (Resource.status c pk true).1 = .ok (c.getJson (relJobPath cu)) ∧
    (relJobPath lu ≠ relJobPath cu →
      Req.get (relJobPath lu) ∉ ((resolveUpdateJob c pk).2).drop 1) := by
  have h1 : resolveUpdateJob c pk =
      (.ok (c.getJson (relJobPath cu)),
       [Req.get (projectPath pk), Req.get (relJobPath cu)]) := by
    unfold resolveUpdateJob
    dsimp only
    rw [hrel]
    dsimp only
    rw [hcu]
    rfl
  refine ⟨h1, ?_, ?_⟩
  · rw [Resource.status, h1]
    simp [statusResult]
    rfl
  · intro hne
    rw [h1]
    intro hmem
    simp at hmem
    exact hne hmem

/-- Witness for C2: project 3 of the sample server carries both links and
the current one wins. -/
theorem status_current_update_precedence_witness :
    resolveUpdateJob sampleClient 3 =
      (.ok (sampleClient.getJson (relJobPath "/api/v1/project_updates/7/")),
       [Req.get (projectPath 3),
        Req.get (relJobPath "/api/v1/project_updates/7/")]) ∧
    (Resource.status sampleClient 3 true).1 =
      .ok (sampleClient.getJson (relJobPath "/api/v1/project_updates/7/")) :=
  ⟨(status_current_update_precedence sampleClient 3 sampleRelated
      "/api/v1/project_updates/7/" "/api/v1/project_updates/5/"
      rfl rfl rfl).1,
   (status_current_update_precedence sampleClient 3 sampleRelated
      "/api/v1/project_updates/7/" "/api/v1/project_updates/5/"
      rfl rfl rfl).2.1⟩

/-- C3: when the related links of a project contain no current_update
reference and no non-null last_update reference, status resolution fails
with NotFound and never yields any job record at all. -/
theorem status_no_updates_notFound
    (c : Client) (pk : Int) (detail : Bool) (related : JObj)
    (hrel : JObj.find (c.getJson (projectPath pk)) "related" =
      some (JVal.obj related))
    (hcu : JObj.find related "current_update" = none)
    (hlu : JObj.find related "last_update" = none ∨
           JObj.find related "last_update" = some JVal.null) :
    (Resource.status c pk detail).1 =
      .error (.notFound "No project updates exist.") ∧
    ∀ r, (Resource.status c pk detail).1 ≠ .ok r := by
  have h1 : resolveUpdateJob c pk =
      (.error (.notFound "No project updates exist."),
       [Req.get (projectPath pk)]) := by
    unfold resolveUpdateJob
    dsimp only
    rw [hrel]
    dsimp only
    rw [hcu]
    rcases hlu with h | h <;> rw [h] <;> rfl
  have h2 : (Resource.status c pk detail).1 =
      .error (.notFound "No project updates exist.") := by
    rw [Resource.status, h1]
    rfl
  exact ⟨h2, fun r hr => by rw [h2] at hr; exact Except.noConfusion hr⟩

/-- Witness for C3: a project with a null last update and no current
update yields NotFound. -/
theorem status_no_updates_notFound_witness :
    (Resource.status ⟨fun _ => [("related",
        JVal.obj [("last_update", JVal.null)])]⟩ 3 false).1 =
      .error (.notFound "No project updates exist.") :=
  (status_no_updates_notFound
    ⟨fun _ => [("related", JVal.obj [("last_update", JVal.null)])]⟩ 3 false
    [("last_update", JVal.null)] rfl rfl (Or.inr rfl)).1

/-- C4: for every project for which the eligibility GET returns a true
can_update, Resource.update without monitoring issues exactly one POST —
to the update endpoint of the resolved project — and returns the record
with the single key changed set to true. -/
theorem update_eligible_one_post
    (c : Client) (acc : Accessor) (mon : Int → Option Nat → MonRes × List Req)
    (pk : Option Int) (timeout : Option Nat)
    (name organization : Option String) (project : JObj) (pk1 : Int)
    (hget : acc.get pk name organization = .ok project)
    (hid : JObj.find project "id" = some (JVal.num pk1))
    (hcu : JObj.find (c.getJson (projectUpdatePath pk1)) "can_update" =
      some (JVal.bool true)) :
    Resource.update c acc mon pk false timeout name organization =
      (.ok (.changed [("changed", JVal.bool true)]),
       [Req.get (projectUpdatePath pk1), Req.post (projectUpdatePath pk1)]) ∧
    ((Resource.update c acc mon pk false timeout name organization).2.filter
      (fun q => !(Req.isGet q))) = [Req.post (projectUpdatePath pk1)] := by
  have h1 : Resource.update c acc mon pk false timeout name organization =
      (.ok (.changed [("changed", JVal.bool true)]),
       [Req.get (projectUpdatePath pk1),
        Req.post (projectUpdatePath pk1)]) := by
    unfold Resource.update
    rw [hget]
    dsimp only
    rw [hid]
    dsimp only
    rw [hcu]
    rfl
  refine ⟨h1, ?_⟩
  rw [h1]
  rfl

/-- Witness for C4: an eligible concrete project gets exactly one POST. -/
theorem update_eligible_one_post_witness :
    Resource.update ⟨fun _ => [("can_update", JVal.bool true)]⟩
      ⟨fun _ _ _ => .ok [("id", JVal.num 3)]⟩ (fun _ _ => (.timedOut, []))
      (some 3) false none none none =
      (.ok (.changed [("changed", JVal.bool true)]),
       [Req.get (projectUpdatePath 3), Req.post (projectUpdatePath 3)]) ∧
    ((Resource.update ⟨fun _ => [("can_update", JVal.bool true)]⟩
        ⟨fun _ _ _ => .ok [("id", JVal.num 3)]⟩ (fun _ _ => (.timedOut, []))
        (some 3) false none none none).2.filter
      (fun q => !(Req.isGet q))) = [Req.post (projectUpdatePath 3)] :=
  update_eligible_one_post _ _ _ _ _ _ _ _ 3 rfl rfl rfl

/-- C5: whenever status resolution succeeds, status with detail returns
the resolved job itself; status without detail returns a record with
exactly the three keys elapsed, failed and status, each value copied
verbatim from the resolved job; and status only ever issues GET
requests. -/
theorem status_projection (c : Client) (pk : Int) :
    (∀ job, (resolveUpdateJob c pk).1 = .ok job →
      (Resource.status c pk true).1 = .ok job) ∧
    (∀ r, (Resource.status c pk false).1 = .ok r →
      ∃ job, (Resource.status c pk true).1 = .ok job ∧
        JObj.keys r = ["elapsed", "failed", "status"] ∧
        JObj.find r "elapsed" = JObj.find job "elapsed" ∧
        JObj.find r "failed" = JObj.find job "failed" ∧
        JObj.find r "status" = JObj.find job "status") ∧
    (∀ detail : Bool, ∀ q ∈ (Resource.status c pk detail).2,
      Req.isGet q = true) := by
  refine ⟨?_, ?_, ?_⟩
  · intro job hjob
    rw [status_fst, hjob]
    simp [statusResult, Except.bind]
  · intro r hr
    rw [status_fst] at hr
    cases hres : (resolveUpdateJob c pk).1 with
    | error e => rw [hres] at hr; exact absurd hr (by simp [Except.bind])
    | ok job =>
      rw [hres] at hr
      dsimp only [Except.bind] at hr
      refine ⟨job, ?_, ?_⟩
      · rw [status_fst, hres]
        dsimp only [Except.bind]
        simp [statusResult]
      · unfold statusResult at hr
        simp only [Bool.false_eq_true, if_false] at hr
        rcases he : JObj.find job "elapsed" with _ | e
        · rw [he] at hr; exact absurd hr (by simp)
        rw [he] at hr
        rcases hf : JObj.find job "failed" with _ | f
        · rw [hf] at hr; exact absurd hr (by simp)
        rw [hf] at hr
        rcases hs : JObj.find job "status" with _ | s
        · rw [hs] at hr; exact absurd hr (by simp)
        rw [hs] at hr
        dsimp only at hr
        have hr2 : [("elapsed", e), ("failed", f), ("status", s)] = r :=
          Except.ok.inj hr
        subst hr2
        refine ⟨rfl, ?_, ?_, ?_⟩ <;> simp [JObj.find, he, hf, hs]
  · intro detail q hq
    rw [status_reqs_eq] at hq
    exact resolveUpdateJob_all_get c pk q hq

/-- Witness for C5: the summary of the sample job has exactly the three
keys with the values of the resolved job. -/
theorem status_projection_witness :
    (Resource.status sampleClient 3 false).1 =
      .ok [("elapsed", JVal.num 45), ("failed", JVal.bool false),
           ("status", JVal.str "successful")] ∧
    ∃ job, (Resource.status sampleClient 3 true).1 = .ok job ∧
      JObj.keys [("elapsed", JVal.num 45), ("failed", JVal.bool false),
           ("status", JVal.str "successful")] =
        ["elapsed", "failed", "status"] ∧
      JObj.find [("elapsed", JVal.num 45), ("failed", JVal.bool false),
           ("status", JVal.str "successful")] "elapsed" =
        JObj.find job "elapsed" ∧
      JObj.find [("elapsed", JVal.num 45), ("failed", JVal.bool false),
           ("status", JVal.str "successful")] "failed" =
        JObj.find job "failed" ∧
      JObj.find [("elapsed", JVal.num 45), ("failed", JVal.bool false),
           ("status", JVal.str "successful")] "status" =
        JObj.find job "status" :=
  ⟨rfl, (status_projection sampleClient 3).2.1 _ rfl⟩

/-- C6: the monitor loop stops at the first terminal poll and returns
that job without further polling; with a timeout set it instead returns
the timeout indication — a value distinct from every terminal job result
— once the elapsed wall clock exceeds the timeout; and with no timeout it
keeps polling forever while the job stays non-terminal. -/
theorem monitor_loop_semantics :
    (∀ (poll : Nat → JObj) (clock : Nat → Nat) (timeout : Option Nat)
        (k : Nat),
      (∀ j, j < k → isTerminalStatus (jobStatus (poll j)) = false ∧
          ∀ t, timeout = some t → clock j - clock 0 ≤ t) →
      isTerminalStatus (jobStatus (poll k)) = true →
      ∀ fuel, k < fuel →
        monitorRun poll clock timeout fuel 0 =
          some (.finished (poll k), k)) ∧
    (∀ (poll : Nat → JObj) (clock : Nat → Nat) (t k : Nat),
      (∀ j, j ≤ k → isTerminalStatus (jobStatus (poll j)) = false) →
      (∀ j, j < k → clock j - clock 0 ≤ t) →
      t < clock k - clock 0 →
      ∀ fuel, k < fuel →
        monitorRun poll clock (some t) fuel 0 = some (.timedOut, k)) ∧
    (∀ job : JObj, MonRes.timedOut ≠ MonRes.finished job) ∧
    (∀ (poll : Nat → JObj) (clock : Nat → Nat),
      (∀ j, isTerminalStatus (jobStatus (poll j)) = false) →
      ∀ fuel tick, monitorRun poll clock none fuel tick = none) := by
  refine ⟨?_, ?_, fun job h => MonRes.noConfusion h, ?_⟩
  · intro poll clock timeout k hpre hk fuel hf
    have hsplit : fuel = k + (fuel - k) := by omega
    rw [hsplit, monitorRun_shift poll clock timeout k 0 (fuel - k)
      (by intro j hj; simpa using hpre j hj)]
    obtain ⟨m, hm⟩ : ∃ m, fuel - k = m + 1 := ⟨fuel - k - 1, by omega⟩
    rw [hm]
    unfold monitorRun
    dsimp only
    rw [Nat.zero_add, hk]
    rfl
  · intro poll clock t k hterm hpre hlate fuel hf
    have hsplit : fuel = k + (fuel - k) := by omega
    rw [hsplit, monitorRun_shift poll clock (some t) k 0 (fuel - k) ?_]
    · obtain ⟨m, hm⟩ : ∃ m, fuel - k = m + 1 := ⟨fuel - k - 1, by omega⟩
      rw [hm]
      unfold monitorRun
      dsimp only
      rw [Nat.zero_add, hterm k (by omega)]
      simp only [Bool.false_eq_true, if_false]
      rw [if_pos hlate]
    · intro j hj
      refine ⟨by simpa using hterm j (by omega), ?_⟩
      intro t1 ht1
      cases ht1
      simpa using hpre j hj
  · intro poll clock hterm fuel
    induction fuel with
    | zero => intro tick; rfl
    | succ fuel ih =>
      intro tick
      rw [monitorRun_step poll clock none fuel tick (hterm tick)
        (by intro t ht; cases ht)]
      exact ih (tick + 1)

/-- Witness for C6: a job that is immediately terminal stops the loop at
tick 0; a never-terminal job with a 50-unit timeout on a 100-unit clock
times out at tick 1; a never-terminal job with no timeout keeps the loop
polling past any fuel bound. -/
theorem monitor_loop_semantics_witness :
    monitorRun (fun _ => [("status", JVal.str "successful")]) (fun n => n)
      none 1 0 =
      some (.finished [("status", JVal.str "successful")], 0) ∧
    monitorRun (fun _ => [("status", JVal.str "running")])
      (fun n => n * 100) (some 50) 2 0 = some (.timedOut, 1) ∧
    monitorRun (fun _ => [("status", JVal.str "running")])
      (fun n => n * 100) none 5 0 = none :=
  ⟨monitor_loop_semantics.1 (fun _ => [("status", JVal.str "successful")])
      (fun n => n) none 0
      (fun j hj => absurd hj (Nat.not_lt_zero j)) rfl 1 Nat.zero_lt_one,
   monitor_loop_semantics.2.1 (fun _ => [("status", JVal.str "running")])
      (fun n => n * 100) 50 1
      (fun _ _ => rfl) (fun j hj => by interval_cases j <;> decide)
      (by decide) 2 Nat.one_lt_two,
   monitor_loop_semantics.2.2.2 (fun _ => [("status", JVal.str "running")])
      (fun n => n * 100) (fun _ => rfl) 5 0⟩

/-- C7: when status follows a current_update or last_update related link,
the path handed to the GET of the API client is the link with exactly its
first seven characters stripped: the stripped part has length seven and
concatenating it back yields the original link. -/
theorem status_link_seven_strip
    (c : Client) (pk : Int) (related : JObj) (url : String) (detail : Bool)
    (hrel : JObj.find (c.getJson (projectPath pk)) "related" =
      some (JVal.obj related))
    (hlink : JObj.find related "current_update" = some (JVal.str url) ∨
      (JObj.find related "current_update" = none ∧
       JObj.find related "last_update" = some (JVal.str url) ∧
       JVal.truthy (JVal.str url) = true)) :
    Req.get (relJobPath url) ∈ (Resource.status c pk detail).2 ∧
    (resolveUpdateJob c pk).1 = .ok (c.getJson (relJobPath url)) ∧
    (relJobPath url).data = url.data.drop 7 ∧
    url.data.take 7 ++ (relJobPath url).data = url.data ∧
    (7 ≤ url.length → (url.data.take 7).length = 7) := by
  have h1 : resolveUpdateJob c pk =
      (.ok (c.getJson (relJobPath url)),
       [Req.get (projectPath pk), Req.get (relJobPath url)]) := by
    unfold resolveUpdateJob
    dsimp only
    rw [hrel]
    dsimp only
    rcases hlink with h | ⟨h, h2, h3⟩
    · rw [h]
      rfl
    · rw [h, h2]
      dsimp only
      rw [h3]
      rfl
  refine ⟨?_, ?_, ?_, ?_, ?_⟩
  · rw [status_reqs_eq, h1]
    simp
  · rw [h1]
  · simp [relJobPath]
  · simp [relJobPath]
  · intro h7
    rw [List.length_take]
    have hl : url.length = url.data.length := rfl
    omega

/-- Witness for C7: the current-update link of the sample project is
stripped of exactly its first seven characters. -/
theorem status_link_seven_strip_witness :
    Req.get (relJobPath "/api/v1/project_updates/7/") ∈
      (Resource.status sampleClient 3 false).2 ∧
    (resolveUpdateJob sampleClient 3).1 =
      .ok (sampleClient.getJson (relJobPath "/api/v1/project_updates/7/")) ∧
    (relJobPath "/api/v1/project_updates/7/").data =
      "/api/v1/project_updates/7/".data.drop 7 ∧
    "/api/v1/project_updates/7/".data.take 7 ++
        (relJobPath "/api/v1/project_updates/7/").data =
      "/api/v1/project_updates/7/".data ∧
    (7 ≤ "/api/v1/project_updates/7/".length →
      ("/api/v1/project_updates/7/".data.take 7).length = 7) :=
  status_link_seven_strip sampleClient 3 sampleRelated
    "/api/v1/project_updates/7/" false rfl (Or.inl rfl)

/-- C8: the organization of a project is settable only at creation — the
modify command does not even offer the organization as an option, any
modify call whose fields come from those options leaves the organization
field of the record unchanged, and create associates a given organization
through a separate association call issued right after the record is
written. -/
theorem organization_only_at_creation :
    ("organization" ∉ modifyOptionFields) ∧
    (∀ record kwargs : JObj,
      (∀ k ∈ JObj.keys kwargs, k ∈ modifyOptionFields) →
      JObj.find (Resource.modify record kwargs) "organization" =
        JObj.find record "organization") ∧
    (∀ (env : CreateEnv) (orgName : String) (monitor : Bool)
        (timeout : Option Nat) (kwargs : JObj) (projectId orgPk : Int)
        (orgData : JObj),
      JObj.find (env.write kwargs) "id" = some (JVal.num projectId) →
      orgName.isEmpty = false →
      env.orgGet orgName = .ok orgData →
      JObj.find orgData "id" = some (JVal.num orgPk) →
      ∃ rest, (Resource.create env (some orgName) monitor timeout kwargs).2 =
        Event.write kwargs :: Event.assoc "projects" orgPk projectId ::
          rest) := by
  refine ⟨by decide, ?_, ?_⟩
  · intro record kwargs hk
    unfold Resource.modify writeFields
    apply JObj.find_append_of_not_key
    intro hmem
    exact absurd (hk _ hmem) (by decide)
  · intro env orgName monitor timeout kwargs projectId orgPk orgData hid hne
      horg hoid
    have ht : optStrTruthy (some orgName) = true := by
      simp [optStrTruthy, hne]
    unfold Resource.create
    dsimp only
    rw [hid]
    dsimp only
    rw [ht]
    dsimp only [Option.getD]
    rw [horg]
    dsimp only
    rw [hoid]
    dsimp only
    cases monitor
    · exact ⟨[], rfl⟩
    · exact ⟨[Event.monitorStart projectId], rfl⟩

/-- Witness for C8: a modify of the name leaves the organization field
alone, and a create with an organization issues the association right
after the write. -/
theorem organization_only_at_creation_witness :
    JObj.find (Resource.modify
        [("organization", JVal.num 9), ("name", JVal.str "p")]
        [("name", JVal.str "q")]) "organization" =
      JObj.find [("organization", JVal.num 9), ("name", JVal.str "p")]
        "organization" ∧
    ∃ rest, (Resource.create sampleCreateEnv (some "Acme") false none
        [("name", JVal.str "p")]).2 =
      Event.write [("name", JVal.str "p")] ::
        Event.assoc "projects" 5 3 :: rest :=
  ⟨organization_only_at_creation.2.1 _ _ (by decide),
   organization_only_at_creation.2.2 sampleCreateEnv "Acme" false none
     [("name", JVal.str "p")] 3 5 [("id", JVal.num 5)] rfl rfl rfl rfl⟩

/-- C9: the status command accepts an identity — a name, or a name plus
organization tuple, in lieu of a primary key — resolves it through the
accessor, and reports the status of the resolved project: the command
behaves exactly as Resource.status on the resolved primary key, fetching
that project from the server. -/
theorem statusCommand_accepts_identity
    (c : Client) (acc : Accessor) (name organization : Option String)
    (detail : Bool) (project : JObj) (rpk : Int)
    (hres : acc.get none name organization = .ok project)
    (hid : JObj.find project "id" = some (JVal.num rpk)) :
    statusCommand c acc none name organization detail =
      Resource.status c rpk detail ∧
    Req.get (projectPath rpk) ∈
      (statusCommand c acc none name organization detail).2 := by
  have h1 : statusCommand c acc none name organization detail =
      Resource.status c rpk detail := by
    unfold statusCommand
    rw [hres]
    dsimp only
    rw [hid]
  refine ⟨h1, ?_⟩
  rw [h1, status_reqs_eq]
  exact resolveUpdateJob_fetches_project c rpk

/-- Witness for C9: a name-only identity is resolved to project 3 and its
status is the one reported. -/
theorem statusCommand_accepts_identity_witness :
    statusCommand sampleClient ⟨fun _ _ _ => .ok [("id", JVal.num 3)]⟩
        none (some "p") none false =
      Resource.status sampleClient 3 false ∧
    Req.get (projectPath 3) ∈
      (statusCommand sampleClient ⟨fun _ _ _ => .ok [("id", JVal.num 3)]⟩
        none (some "p") none false).2 :=
  statusCommand_accepts_identity sampleClient _ (some "p") none false
    [("id", JVal.num 3)] 3 rfl rfl

/-- C10: create with monitoring returns the result of the monitor loop on
the id of the newly created project — never the created record itself —
and create issues no client request of its own, in particular no
eligibility GET and no update POST, before or while monitoring. -/
theorem create_monitor_delegates
    (env : CreateEnv) (organization : Option String) (timeout : Option Nat)
    (kwargs : JObj) (projectId : Int)
    (hid : JObj.find (env.write kwargs) "id" = some (JVal.num projectId))
    (horg : optStrTruthy organization = false ∨
      ∃ orgData orgPk, env.orgGet (organization.getD "") = .ok orgData ∧
        JObj.find orgData "id" = some (JVal.num orgPk)) :
    (Resource.create env organization true timeout kwargs).1 =
      .ok (.monitored (env.mon projectId timeout)) ∧
    (∀ a, (Resource.create env organization true timeout kwargs).1 ≠
      .ok (.created a)) ∧
    (∀ p, Event.get p ∉ (Resource.create env organization true timeout
        kwargs).2 ∧
      Event.post p ∉ (Resource.create env organization true timeout
        kwargs).2) := by
  have key : ∃ evs, Resource.create env organization true timeout kwargs =
      (.ok (.monitored (env.mon projectId timeout)), evs) ∧
      (∀ p, Event.get p ∉ evs ∧ Event.post p ∉ evs) := by
    cases hb : optStrTruthy organization with
    | false =>
      refine ⟨[Event.write kwargs, Event.monitorStart projectId], ?_, ?_⟩
      · unfold Resource.create
        dsimp only
        rw [hid]
        dsimp only
        rw [hb]
        rfl
      · intro p
        constructor <;> simp
    | true =>
      rcases horg with hfalse | ⟨orgData, orgPk, ho1, ho2⟩
      · rw [hb] at hfalse
        exact absurd hfalse (by simp)
      · refine ⟨[Event.write kwargs, Event.assoc "projects" orgPk projectId,
          Event.monitorStart projectId], ?_, ?_⟩
        · unfold Resource.create
          dsimp only
          rw [hid]
          dsimp only
          rw [hb]
          simp only [eq_self_iff_true, if_true]
          rw [ho1]
          dsimp only
          rw [ho2]
          rfl
        · intro p
          constructor <;> simp
  rcases key with ⟨evs, hkey, hnoreq⟩
  refine ⟨by rw [hkey], ?_, ?_⟩
  · intro a
    rw [hkey]
    simp
  · intro p
    rw [hkey]
    exact hnoreq p

/-- Witness for C10: create with monitoring hands back the monitor result
for the new project id and performs no client request of its own. -/
theorem create_monitor_delegates_witness :
    (Resource.create sampleCreateEnv (some "Acme") true none
        [("name", JVal.str "p")]).1 =
      .ok (.monitored MonRes.timedOut) ∧
    ∀ a, (Resource.create sampleCreateEnv (some "Acme") true none
        [("name", JVal.str "p")]).1 ≠ .ok (.created a) :=
  ⟨(create_monitor_delegates sampleCreateEnv (some "Acme") none
      [("name", JVal.str "p")] 3 rfl
      (Or.inr ⟨[("id", JVal.num 5)], 5, rfl, rfl⟩)).1,
   (create_monitor_delegates sampleCreateEnv (some "Acme") none
      [("name", JVal.str "p")] 3 rfl
      (Or.inr ⟨[("id", JVal.num 5)], 5, rfl, rfl⟩)).2.1⟩

end TowerCli
